import Mathlib

/-!
Verification development for the semantic retrieval core of the
`llamasearch-experimentalagents-augmented-professional` repository.

The repository's `KnowledgeManager` (integrations/knowledge_manager.py) is
embedded from its source.  The `SemanticRetriever` and the knowledge data
model (`agents/retriever.py`, `models/knowledge.py`) are imported and called
throughout the repository but their module sources are not present; those
parts are modelled from the specification, as marked on each definition.

Embeddings and scores are modelled as exact rationals.  The floating-point
square root used by the numeric backends is modelled by `ratSqrt`, a total
computable function on `ℚ` that is exact on perfect-square rationals (the
source's `float` square root is itself an approximation; no claim below
depends on the value of the square root, only on its sign and zero set).
-/

deriving instance DecidableEq for Except

namespace LlamaSearch

/-- Modelled from the spec (§3, models/knowledge.py is missing):
a Document Chunk: text body, source identifier, open string-keyed metadata,
and an optional embedding vector (absent until computed). -/
structure KnowledgeChunk where
  content : String
  source : String
  metadata : List (String × String)
  embedding : Option (List ℚ)
deriving DecidableEq

/-- Modelled from the spec (§3, models/knowledge.py is missing):
the Corpus (Knowledge Base): an ordered collection of chunks, insertion
order preserved. -/
structure KnowledgeBase where
  name : String
  chunks : List KnowledgeChunk
deriving DecidableEq

/-- Modelled from the spec (§3): appending one chunk preserves insertion order. -/
def KnowledgeBase.add_chunk (kb : KnowledgeBase) (c : KnowledgeChunk) : KnowledgeBase :=
  { kb with chunks := kb.chunks ++ [c] }

/-- Modelled from the spec (§3): appending a batch of chunks in order. -/
def KnowledgeBase.add_chunks (kb : KnowledgeBase) (cs : List KnowledgeChunk) : KnowledgeBase :=
  { kb with chunks := kb.chunks ++ cs }

/-- Rational model of the numeric square root: exact on rationals whose
numerator and denominator are perfect squares, monotone approximation
elsewhere.  Total and computable; `ratSqrt x = 0` exactly when `x ≤ 0`. -/
def ratSqrt (x : ℚ) : ℚ :=
  (Nat.sqrt x.num.toNat : ℚ) / (Nat.sqrt x.den : ℚ)

/-- Dot product of two vectors (componentwise product, summed). -/
def dot (v w : List ℚ) : ℚ :=
  (List.zipWith (· * ·) v w).sum

/-- Squared Euclidean norm of a vector. -/
def sqNorm (v : List ℚ) : ℚ := dot v v

/-- Modelled from the spec (§4.1): clamp a score to the closed interval
`[-1, 1]` (the bounding that absorbs floating-point overshoot). -/
def clamp (x : ℚ) : ℚ := max (-1) (min 1 x)

/-- Modelled from the spec (§4.1, agents/retriever.py is missing):
cosine similarity of a query vector and one document vector:
`dot q d / (‖q‖ * ‖d‖)`, defined as `0` when either operand has zero norm
(the explicit zero-norm guard), and clamped to `[-1, 1]`. -/
def cosineSim (q d : List ℚ) : ℚ :=
  if ratSqrt (sqNorm q) = 0 ∨ ratSqrt (sqNorm d) = 0 then 0
  else clamp (dot q d / (ratSqrt (sqNorm q) * ratSqrt (sqNorm d)))

/-- Modelled from the spec (§4.1): the vectorized-CPU (NumPy) similarity
kernel: one clamped, zero-norm-guarded cosine score per document vector,
in input order. -/
def numpy_cosine_sim (q : List ℚ) (docs : List (List ℚ)) : List ℚ :=
  docs.map (fun d => cosineSim q d)

/-- Modelled from the spec (§4.1): the MLX accelerator variant of the
similarity kernel; the spec mandates the same contract and the same
zero-norm guard as the CPU kernel. -/
def mlx_cosine_sim (q : List ℚ) (docs : List (List ℚ)) : List ℚ :=
  docs.map (fun d => cosineSim q d)

/-- Modelled from the spec (§4.1): the JAX accelerator variant of the
similarity kernel; same contract and guard as the CPU kernel. -/
def jax_cosine_sim (q : List ℚ) (docs : List (List ℚ)) : List ℚ :=
  docs.map (fun d => cosineSim q d)

/-- Modelled from the spec (§9): the closed tagged-variant enumeration of
backend identifiers. -/
inductive Backend where
  | mlx : Backend
  | jax : Backend
  | numpy : Backend
deriving DecidableEq

/-- Which accelerator backends are present on this machine; the vectorized
CPU backend is always available (spec §4.2). -/
structure Availability where
  mlx : Bool
  jax : Bool
deriving DecidableEq

/-- Modelled from the spec (§4.2): a backend is available when it is the
always-available CPU fallback or its accelerator is present. -/
def backendAvailable (a : Availability) : Backend → Bool
  | Backend.mlx => a.mlx
  | Backend.jax => a.jax
  | Backend.numpy => true

/-- Modelled from the spec (§4.2): automatic selection probes backends in
the fixed priority order MLX, JAX, vectorized-CPU and returns the first
available one; the CPU fallback always succeeds. -/
def auto_backend (a : Availability) : Backend :=
  if a.mlx then Backend.mlx
  else if a.jax then Backend.jax
  else Backend.numpy

/-- Modelled from the spec (§4.2, agents/retriever.py is missing):
backend selection.  An explicit, valid, currently-available preference is
honored unconditionally; an unavailable preference or no preference falls
back to automatic probing.  The query vector is accepted (the source uses
it only for size/availability detection) but its values never influence
the choice.  This operation never fails. -/
def select_backend (a : Availability) (_query : List ℚ) (prefer : Option Backend) : Backend :=
  match prefer with
  | some Backend.numpy => Backend.numpy
  | some Backend.mlx => if a.mlx then Backend.mlx else auto_backend a
  | some Backend.jax => if a.jax then Backend.jax else auto_backend a
  | none => auto_backend a

/-- The statically-known kernel implementation for each backend identifier
(spec §9: selection is a plain enumeration switch). -/
def kernel_for : Backend → List ℚ → List (List ℚ) → List ℚ
  | Backend.mlx => mlx_cosine_sim
  | Backend.jax => jax_cosine_sim
  | Backend.numpy => numpy_cosine_sim

/-- A candidate for scoring: an embedded chunk together with its original
corpus insertion index. -/
structure Candidate where
  idx : Nat
  chunk : KnowledgeChunk
  emb : List ℚ
deriving DecidableEq

/-- Enumerate the chunks from position `i` on, keeping exactly those that
carry an embedding, each paired with its corpus insertion index (spec §4.3
step 2: chunks without an embedding are absent from the search space). -/
def buildCandidatesFrom : Nat → List KnowledgeChunk → List Candidate
  | _, [] => []
  | i, c :: cs =>
    match c.embedding with
    | some e => ⟨i, c, e⟩ :: buildCandidatesFrom (i + 1) cs
    | none => buildCandidatesFrom (i + 1) cs

/-- The embedding matrix of a corpus: all embedded chunks with their
original insertion indices. -/
def buildCandidates (kb : KnowledgeBase) : List Candidate :=
  buildCandidatesFrom 0 kb.chunks

/-- Modelled from the spec (§3, §4.3, agents/retriever.py is missing):
the Retriever: a non-owning view of the corpus, the machine's backend
availability, and the transient embedding-matrix cache (absent until the
first search, explicitly invalidated by the corpus-mutating collaborator). -/
structure SemanticRetriever where
  kb : KnowledgeBase
  avail : Availability
  embeddings_cache : Option (List Candidate)

/-- Modelled from the spec (§6, §9): the Retriever's public
cache-invalidation operation: sets the cache to absent. -/
def SemanticRetriever.clear_cache (r : SemanticRetriever) : SemanticRetriever :=
  { r with embeddings_cache := none }

/-- The candidate matrix a search works on: the cached matrix when one is
present, otherwise the matrix freshly built from the corpus (spec §4.3
step 2). -/
def candidatesOf (r : SemanticRetriever) : List Candidate :=
  match r.embeddings_cache with
  | some cs => cs
  | none => buildCandidates r.kb

/-- The spec's cache-validity discipline (§3): the cached matrix, when
present, is the one built from the current corpus. -/
def cacheConsistent (r : SemanticRetriever) : Prop :=
  r.embeddings_cache = none ∨ r.embeddings_cache = some (buildCandidates r.kb)

/-- A scored candidate: the chunk, its corpus insertion index, and its
similarity score. -/
structure Entry where
  idx : Nat
  chunk : KnowledgeChunk
  score : ℚ
deriving DecidableEq

/-- Ranking order (spec §4.3 step 5): score descending, ties broken by
original corpus insertion order. -/
def entryLE (a b : Entry) : Bool :=
  decide (b.score < a.score ∨ (a.score = b.score ∧ a.idx ≤ b.idx))

/-- Pair each candidate with the score the batch kernel computed for it
(one score per candidate, in order). -/
def scoreWith (kern : List ℚ → List (List ℚ) → List ℚ) (q : List ℚ)
    (cands : List Candidate) : List Entry :=
  List.zipWith (fun c s => ⟨c.idx, c.chunk, s⟩) cands (kern q (cands.map (·.emb)))

/-- A Scored Result (spec §3): content, source, metadata and score of one
matching chunk. -/
structure ScoredResult where
  content : String
  source : String
  metadata : List (String × String)
  score : ℚ
deriving DecidableEq

/-- Package a ranked entry as the caller-visible result record. -/
def entryResult (e : Entry) : ScoredResult :=
  ⟨e.chunk.content, e.chunk.source, e.chunk.metadata, e.score⟩

/-- A Search Outcome (spec §3): the ordered results, the backend that ran,
and the elapsed time.  Wall-clock time has no shallow embedding; the model
reports a constant `0` (non-negative, near-zero). -/
structure SearchOutcome where
  results : List ScoredResult
  backend_used : Backend
  elapsed_ms : ℚ
deriving DecidableEq

/-- The error taxonomy visible to the Retriever's caller (spec §7): only
the invalid-input error escapes. -/
inductive SearchErr where
  | invalidInput : SearchErr
deriving DecidableEq

/-- The ranked, thresholded, truncated entry list of a search (spec §4.3
steps 4-7), parametric in the backend kernel family: score all candidates,
stable-sort by score descending with insertion-order tie-break, keep the
scores at or above the threshold, truncate to `top_k`. -/
def keptEntriesWith (kern : Backend → List ℚ → List (List ℚ) → List ℚ)
    (r : SemanticRetriever) (q : List ℚ) (top_k : Nat) (threshold : ℚ)
    (prefer : Option Backend) : List Entry :=
  let b := select_backend r.avail q prefer
  let entries := (scoreWith (kern b) q (candidatesOf r)).mergeSort entryLE
  (entries.filter (fun e => decide (threshold ≤ e.score))).take top_k

/-- The ranked entry list of a search with the real backend kernels. -/
def keptEntries (r : SemanticRetriever) (q : List ℚ) (top_k : Nat)
    (threshold : ℚ) (prefer : Option Backend) : List Entry :=
  keptEntriesWith kernel_for r q top_k threshold prefer

/-- Modelled from the spec (§4.3, agents/retriever.py is missing):
`semantic_search`, parametric in the backend kernel family.  Degenerate
corpus (no embedded chunk) returns an empty result list with the nominal
default backend and no kernel invocation; an empty or
dimension-mismatched query on a non-degenerate corpus fails with the
invalid-input error; otherwise the candidates are scored, ranked,
thresholded (inclusive) and truncated, and the cache is (re)populated. -/
def semantic_search_with (kern : Backend → List ℚ → List (List ℚ) → List ℚ)
    (r : SemanticRetriever) (q : List ℚ) (top_k : Nat) (threshold : ℚ)
    (prefer : Option Backend) :
    Except SearchErr SearchOutcome × SemanticRetriever :=
  let cands := candidatesOf r
  if cands = [] then
    (Except.ok ⟨[], Backend.numpy, 0⟩, r)
  else if q = [] ∨ ∃ c ∈ cands, c.emb.length ≠ q.length then
    (Except.error SearchErr.invalidInput, r)
  else
    let b := select_backend r.avail q prefer
    (Except.ok ⟨(keptEntriesWith kern r q top_k threshold prefer).map entryResult, b, 0⟩,
      { r with embeddings_cache := some cands })

/-- Modelled from the spec (§4.3): the Retriever's public search operation,
with the real backend kernels. -/
def SemanticRetriever.semantic_search (r : SemanticRetriever) (q : List ℚ)
    (top_k : Nat) (threshold : ℚ) (prefer : Option Backend) :
    Except SearchErr SearchOutcome × SemanticRetriever :=
  semantic_search_with kernel_for r q top_k threshold prefer

/-- The KnowledgeManager (integrations/knowledge_manager.py, embedded from
source): the external embedding client is modelled by two fallible
functions (query embedding and batch embedding), and the manager owns the
retriever over its knowledge base. -/
structure KnowledgeManager where
  embedQuery : String → Except String (List ℚ)
  embedBatch : List String → Except String (List (List ℚ))
  retriever : SemanticRetriever

/-- Assign freshly computed embeddings positionally to the chunks that
lack one, leaving embedded chunks untouched (knowledge_manager.py lines
103-109). -/
def assignEmbeddings : List KnowledgeChunk → List (List ℚ) → List KnowledgeChunk
  | [], _ => []
  | c :: cs, es =>
    match c.embedding with
    | some _ => c :: assignEmbeddings cs es
    | none =>
      match es with
      | [] => c :: cs
      | e :: es' => { c with embedding := some e } :: assignEmbeddings cs es'

/-- `KnowledgeManager.generate_embeddings_for_new_chunks`
(knowledge_manager.py lines 84-121): embed every chunk that has no
embedding; on success assign the embeddings and null out the retriever's
cache field directly (`self.retriever._embeddings_cache = None`, line 117);
on an embedding-client error swallow the exception and leave the manager
unchanged.  The source's batching and rate-limit sleeps do not affect the
resulting state and are not modelled. -/
def KnowledgeManager.generate_embeddings_for_new_chunks
    (km : KnowledgeManager) : KnowledgeManager :=
  let toEmbed := km.retriever.kb.chunks.filter (fun c => c.embedding.isNone)
  if toEmbed = [] then km
  else
    match km.embedBatch (toEmbed.map (·.content)) with
    | Except.error _ => km
    | Except.ok embs =>
      { km with
          retriever :=
            { km.retriever with
                kb := { km.retriever.kb with
                          chunks := assignEmbeddings km.retriever.kb.chunks embs },
                embeddings_cache := none } }

/-- The body of the `try` block of `KnowledgeManager.search`
(knowledge_manager.py lines 132-145): embed the query, run the semantic
search, return its result list; either step's failure propagates as an
error. -/
def KnowledgeManager.searchCore (km : KnowledgeManager) (query : String)
    (top_k : Nat) (threshold : ℚ) : Except String (List ScoredResult) :=
  match km.embedQuery query with
  | Except.error e => Except.error e
  | Except.ok qe =>
    match (km.retriever.semantic_search qe top_k threshold none).1 with
    | Except.error _ => Except.error "invalid input"
    | Except.ok oc => Except.ok oc.results

/-- `KnowledgeManager.search` (knowledge_manager.py lines 123-149): return
an empty list for an empty corpus or a corpus with no embedded chunk; run
the embed-and-search pipeline inside a catch-all that turns any error into
an empty list. -/
def KnowledgeManager.search (km : KnowledgeManager) (query : String)
    (top_k : Nat) (threshold : ℚ) : List ScoredResult :=
  if km.retriever.kb.chunks = [] then []
  else if km.retriever.kb.chunks.all (fun c => c.embedding.isNone) then []
  else
    match km.searchCore query top_k threshold with
    | Except.ok rs => rs
    | Except.error _ => []

/-- The eligible documents of a search: the scored candidates whose score
meets the threshold (before ranking and truncation). -/
def eligibleEntries (r : SemanticRetriever) (q : List ℚ) (threshold : ℚ)
    (prefer : Option Backend) : List Entry :=
  (scoreWith (kernel_for (select_backend r.avail q prefer)) q (candidatesOf r)).filter
    (fun e => decide (threshold ≤ e.score))

/-! ### Concrete fixtures used by the witness theorems -/

/-- A corpus with one chunk and no embedding anywhere: the degenerate
search space. -/
def sampleKBdeg : KnowledgeBase := ⟨"kb", [⟨"unembedded", "s", [], none⟩]⟩

/-- A retriever over the degenerate corpus. -/
def sampleRdeg : SemanticRetriever := ⟨sampleKBdeg, ⟨true, false⟩, none⟩

/-- A corpus with a single embedded chunk. -/
def sampleKBemb : KnowledgeBase := ⟨"kb", [⟨"a", "s", [], some [1, 0]⟩]⟩

/-- A retriever over the single-chunk corpus, cache not yet built. -/
def sampleRemb : SemanticRetriever := ⟨sampleKBemb, ⟨false, false⟩, none⟩

/-- The outcome of searching the single-chunk corpus with its own
embedding as the query. -/
def sampleOutcome : SearchOutcome := ⟨[⟨"a", "s", [], 1⟩], Backend.numpy, 0⟩

/-- A corpus with two chunks sharing one embedding: a scoring tie. -/
def sampleKBtie : KnowledgeBase :=
  ⟨"kb", [⟨"a", "s", [], some [1, 0]⟩, ⟨"b", "s", [], some [1, 0]⟩]⟩

/-- A retriever over the tied corpus. -/
def sampleRtie : SemanticRetriever := ⟨sampleKBtie, ⟨false, false⟩, none⟩

/-- A manager whose embedding client always fails. -/
def kmFail : KnowledgeManager :=
  ⟨fun _ => Except.error "api down", fun _ => Except.error "api down", sampleRemb⟩

/-- A manager holding one unembedded chunk and a stale (empty) cache, with
a batch-embedding client that returns one vector. -/
def kmNew : KnowledgeManager :=
  ⟨fun _ => Except.error "unused", fun _ => Except.ok [[1, 0]],
    ⟨⟨"kb", [⟨"c", "s", [], none⟩]⟩, ⟨false, false⟩, some []⟩⟩

/-! ### Helper lemmas about the numeric kernel -/

theorem semantic_search_eq (r : SemanticRetriever) (q : List ℚ) (top_k : Nat)
    (threshold : ℚ) (prefer : Option Backend) :
    r.semantic_search q top_k threshold prefer =
      semantic_search_with kernel_for r q top_k threshold prefer := rfl

theorem sqNorm_nonneg (v : List ℚ) : 0 ≤ sqNorm v := by
  unfold sqNorm dot
  induction v with
  | nil => simp
  | cons a l ih =>
    simp only [List.zipWith_cons_cons, List.sum_cons]
    exact add_nonneg (mul_self_nonneg a) ih

theorem ratSqrt_zero : ratSqrt 0 = 0 := by
  simp [ratSqrt]

theorem ratSqrt_pos {x : ℚ} (h : 0 < x) : 0 < ratSqrt x := by
  unfold ratSqrt
  apply div_pos
  · have h1 : 0 < x.num := Rat.num_pos.mpr h
    have h2 : 0 < x.num.toNat := by omega
    exact_mod_cast Nat.sqrt_pos.mpr h2
  · exact_mod_cast Nat.sqrt_pos.mpr x.den_pos

theorem clamp_bounds (x : ℚ) : -1 ≤ clamp x ∧ clamp x ≤ 1 := by
  constructor
  · exact le_max_left _ _
  · exact max_le (by norm_num) (min_le_left _ _)

theorem clamp_eq_self {x : ℚ} (h1 : -1 ≤ x) (h2 : x ≤ 1) : clamp x = x := by
  unfold clamp
  rw [min_eq_right h2, max_eq_right h1]

theorem cosineSim_bounds (q d : List ℚ) : -1 ≤ cosineSim q d ∧ cosineSim q d ≤ 1 := by
  unfold cosineSim
  split
  · norm_num
  · exact clamp_bounds _

theorem cosineSim_of_zero_norm {q d : List ℚ} (h : sqNorm q = 0 ∨ sqNorm d = 0) :
    cosineSim q d = 0 := by
  unfold cosineSim
  rcases h with h | h <;> simp [h, ratSqrt_zero]

theorem kernel_for_eq (b : Backend) : kernel_for b = numpy_cosine_sim := by
  cases b <;> rfl

/-! ### Helper lemmas about ranking and the search pipeline -/

theorem entryLE_iff (a b : Entry) :
    entryLE a b = true ↔ (b.score < a.score ∨ (a.score = b.score ∧ a.idx ≤ b.idx)) := by
  simp [entryLE]

theorem entryLE_trans (a b c : Entry) (hab : entryLE a b = true)
    (hbc : entryLE b c = true) : entryLE a c = true := by
  rw [entryLE_iff] at hab hbc ⊢
  rcases hab with h1 | ⟨h1, h1'⟩ <;> rcases hbc with h2 | ⟨h2, h2'⟩
  · exact Or.inl (h2.trans h1)
  · exact Or.inl (h2 ▸ h1)
  · exact Or.inl (h1 ▸ h2)
  · exact Or.inr ⟨h1.trans h2, h1'.trans h2'⟩

theorem entryLE_total (a b : Entry) : (entryLE a b || entryLE b a) = true := by
  rcases lt_trichotomy a.score b.score with h | h | h
  · simp [entryLE_iff, h]
  · rcases Nat.le_total a.idx b.idx with hi | hi <;> simp [entryLE_iff, h, hi]
  · simp [entryLE_iff, h]

theorem buildCandidatesFrom_lb (cs : List KnowledgeChunk) :
    ∀ i c, c ∈ buildCandidatesFrom i cs → i ≤ c.idx := by
  induction cs with
  | nil => intro i c h; simp [buildCandidatesFrom] at h
  | cons hd tl ih =>
    intro i c h
    unfold buildCandidatesFrom at h
    cases he : hd.embedding with
    | some e =>
      rw [he] at h
      rcases List.mem_cons.mp h with h' | h'
      · subst h'; exact le_refl _
      · exact (Nat.le_succ i).trans (ih (i + 1) c h')
    | none =>
      rw [he] at h
      exact (Nat.le_succ i).trans (ih (i + 1) c h)

theorem buildCandidatesFrom_pairwise_idx (cs : List KnowledgeChunk) :
    ∀ i, List.Pairwise (fun a b : Candidate => a.idx < b.idx) (buildCandidatesFrom i cs) := by
  induction cs with
  | nil => intro i; simp [buildCandidatesFrom]
  | cons hd tl ih =>
    intro i
    unfold buildCandidatesFrom
    cases he : hd.embedding with
    | some e =>
      refine List.pairwise_cons.mpr ⟨?_, ih (i + 1)⟩
      intro c hc
      exact lt_of_lt_of_le (Nat.lt_succ_self i) (buildCandidatesFrom_lb tl (i + 1) c hc)
    | none => exact ih (i + 1)

theorem buildCandidates_pairwise_idx (kb : KnowledgeBase) :
    List.Pairwise (fun a b : Candidate => a.idx < b.idx) (buildCandidates kb) :=
  buildCandidatesFrom_pairwise_idx kb.chunks 0

theorem candidatesOf_eq {r : SemanticRetriever} (hc : cacheConsistent r) :
    candidatesOf r = buildCandidates r.kb := by
  rcases hc with h | h <;> simp [candidatesOf, h]

theorem scoreWith_kernel (b : Backend) (q : List ℚ) (cands : List Candidate) :
    scoreWith (kernel_for b) q cands =
      cands.map (fun c => ⟨c.idx, c.chunk, cosineSim q c.emb⟩) := by
  unfold scoreWith
  rw [kernel_for_eq]
  unfold numpy_cosine_sim
  rw [List.map_map, List.zipWith_map_right, List.zipWith_same]
  rfl

/-- The entries a search scores keep their candidate's insertion index, so
their indices are strictly increasing when the candidates come from the
corpus. -/
theorem scored_pairwise_idx {r : SemanticRetriever} (hc : cacheConsistent r)
    (b : Backend) (q : List ℚ) :
    List.Pairwise (fun a b : Entry => a.idx < b.idx)
      (scoreWith (kernel_for b) q (candidatesOf r)) := by
  rw [scoreWith_kernel, candidatesOf_eq hc]
  exact (buildCandidates_pairwise_idx r.kb).map _ (fun a b h => h)

/-- Every score a search assigns is a clamped cosine similarity. -/
theorem score_mem_bounds {e : Entry} {kern : Backend → List ℚ → List (List ℚ) → List ℚ}
    (hk : ∀ b, kern b = numpy_cosine_sim) {b : Backend} {q : List ℚ}
    {cands : List Candidate} (h : e ∈ scoreWith (kern b) q cands) :
    -1 ≤ e.score ∧ e.score ≤ 1 := by
  rw [hk] at h
  rw [← kernel_for_eq Backend.numpy, scoreWith_kernel] at h
  rcases List.mem_map.mp h with ⟨c, _, hce⟩
  rw [← hce]
  exact cosineSim_bounds q c.emb

/-- In every successful search the result list is exactly the ranked,
thresholded, truncated entry list, packaged. -/
theorem searchResults_eq {kern : Backend → List ℚ → List (List ℚ) → List ℚ}
    {r : SemanticRetriever} {q : List ℚ} {top_k : Nat} {threshold : ℚ}
    {prefer : Option Backend} {oc : SearchOutcome}
    (h : (semantic_search_with kern r q top_k threshold prefer).1 = Except.ok oc) :
    oc.results = (keptEntriesWith kern r q top_k threshold prefer).map entryResult := by
  unfold semantic_search_with at h
  by_cases h1 : candidatesOf r = []
  · rw [if_pos h1] at h
    have h' : Except.ok (⟨[], Backend.numpy, 0⟩ : SearchOutcome) = Except.ok oc := h
    cases h'
    simp [keptEntriesWith, scoreWith, h1]
  · rw [if_neg h1] at h
    by_cases h2 : q = [] ∨ ∃ c ∈ candidatesOf r, c.emb.length ≠ q.length
    · rw [if_pos h2] at h
      exact Except.noConfusion
        (show Except.error SearchErr.invalidInput = Except.ok oc from h)
    · rw [if_neg h2] at h
      have h' : Except.ok
          (⟨(keptEntriesWith kern r q top_k threshold prefer).map entryResult,
            select_backend r.avail q prefer, 0⟩ : SearchOutcome) = Except.ok oc := h
      cases h'
      rfl

/-! ### Claim theorems -/

/-- C1: the Retriever's public search fails, and fails with the
invalid-input error, exactly when the corpus has an embedded chunk and the
query embedding is empty or mismatches the corpus's embedding
dimensionality; no other error can reach the caller (the error type has no
other inhabitant, and every other condition returns a well-formed
outcome). -/
theorem search_error_iff_invalid_input (r : SemanticRetriever) (q : List ℚ)
    (k : Nat) (t : ℚ) (p : Option Backend) (hc : cacheConsistent r) :
    (r.semantic_search q k t p).1 = Except.error SearchErr.invalidInput ↔
      (buildCandidates r.kb ≠ [] ∧
        (q = [] ∨ ∃ c ∈ buildCandidates r.kb, c.emb.length ≠ q.length)) := by
  rw [semantic_search_eq]
  unfold semantic_search_with
  rw [candidatesOf_eq hc]
  by_cases hb : buildCandidates r.kb = []
  · rw [if_pos hb]
    simp [hb]
  · rw [if_neg hb]
    by_cases h2 : q = [] ∨ ∃ c ∈ buildCandidates r.kb, c.emb.length ≠ q.length
    · rw [if_pos h2]
      simp [hb, h2]
    · rw [if_neg h2]
      simp [hb, h2]

/-- Witness for C1: on a corpus with one embedded chunk, the empty query
embedding is rejected with the invalid-input error. -/
theorem search_error_iff_invalid_input_witness :
    (sampleRemb.semantic_search [] 3 0 none).1 = Except.error SearchErr.invalidInput :=
  (search_error_iff_invalid_input sampleRemb [] 3 0 none (Or.inl rfl)).mpr
    (by decide)

/-- C2: on a corpus with no embedded chunk, every query returns the empty
result list with the nominal default backend identifier and a zero
(non-negative) elapsed time, without error, leaving the retriever
untouched — and this holds for every kernel family alike, so no
similarity backend is invoked. -/
theorem degenerate_corpus_empty_results (r : SemanticRetriever) (q : List ℚ)
    (k : Nat) (t : ℚ) (p : Option Backend) (hc : cacheConsistent r)
    (hkb : buildCandidates r.kb = []) :
    ∀ kern, semantic_search_with kern r q k t p =
      (Except.ok ⟨[], Backend.numpy, 0⟩, r) := by
  intro kern
  have h1 : candidatesOf r = [] := by rw [candidatesOf_eq hc, hkb]
  unfold semantic_search_with
  rw [if_pos h1]

/-- Witness for C2: the search over the unembedded one-chunk corpus
returns the empty outcome. -/
theorem degenerate_corpus_empty_results_witness :
    sampleRdeg.semantic_search [1, 2] 3 0 none =
      (Except.ok ⟨[], Backend.numpy, 0⟩, sampleRdeg) :=
  degenerate_corpus_empty_results sampleRdeg [1, 2] 3 0 none (Or.inl rfl)
    (by decide) kernel_for

/-- C3: every score the CPU kernel produces lies in `[-1, 1]`; the clamp is
the identity inside `[-1, 1]` (legitimate negative values are not
clipped); and hence every score in any successful search's results lies in
`[-1, 1]`. -/
theorem kernel_scores_clamped_to_unit_interval :
    (∀ (q : List ℚ) (docs : List (List ℚ)) (s : ℚ),
      s ∈ numpy_cosine_sim q docs → -1 ≤ s ∧ s ≤ 1) ∧
    (∀ x : ℚ, -1 ≤ x → x ≤ 1 → clamp x = x) ∧
    (∀ (r : SemanticRetriever) (q : List ℚ) (k : Nat) (t : ℚ)
        (p : Option Backend) (oc : SearchOutcome) (res : ScoredResult),
      (r.semantic_search q k t p).1 = Except.ok oc → res ∈ oc.results →
      -1 ≤ res.score ∧ res.score ≤ 1) := by
  refine ⟨?_, ?_, ?_⟩
  · intro q docs s hs
    rcases List.mem_map.mp hs with ⟨d, _, hd⟩
    rw [← hd]
    exact cosineSim_bounds q d
  · intro x h1 h2
    exact clamp_eq_self h1 h2
  · intro r q k t p oc res hok hres
    rw [semantic_search_eq] at hok
    rw [searchResults_eq hok] at hres
    rcases List.mem_map.mp hres with ⟨e, he, hre⟩
    have he1 : e ∈ (scoreWith (kernel_for (select_backend r.avail q p)) q
        (candidatesOf r)).mergeSort entryLE :=
      List.mem_of_mem_filter (List.mem_of_mem_take he)
    have he2 := (List.mergeSort_perm _ entryLE).mem_iff.mp he1
    rw [← hre]
    exact score_mem_bounds kernel_for_eq he2

/-- Witness for C3: the score of an orthogonal pair is in bounds. -/
theorem kernel_scores_clamped_witness :
    -1 ≤ cosineSim [1, 0] [0, 1] ∧ cosineSim [1, 0] [0, 1] ≤ 1 :=
  kernel_scores_clamped_to_unit_interval.1 [1, 0] [[0, 1]] (cosineSim [1, 0] [0, 1])
    (by simp [numpy_cosine_sim])

/-- C4: when either operand has zero norm the similarity is defined to be
exactly `0` in every backend variant of the kernel, and in the non-zero
case the division is guarded: its denominator cannot vanish. -/
theorem zero_norm_guard :
    (∀ q d : List ℚ, sqNorm q = 0 ∨ sqNorm d = 0 →
      ∀ b, kernel_for b q [d] = [0]) ∧
    (∀ q d : List ℚ, sqNorm q ≠ 0 → sqNorm d ≠ 0 →
      ratSqrt (sqNorm q) * ratSqrt (sqNorm d) ≠ 0) := by
  constructor
  · intro q d h b
    rw [kernel_for_eq]
    simp [numpy_cosine_sim, cosineSim_of_zero_norm h]
  · intro q d hq hd
    have h1 : 0 < sqNorm q := lt_of_le_of_ne (sqNorm_nonneg q) (Ne.symm hq)
    have h2 : 0 < sqNorm d := lt_of_le_of_ne (sqNorm_nonneg d) (Ne.symm hd)
    exact (mul_pos (ratSqrt_pos h1) (ratSqrt_pos h2)).ne'

/-- Witness for C4: the MLX variant maps the zero query vector to score 0. -/
theorem zero_norm_guard_witness : kernel_for Backend.mlx [0, 0] [[1, 2]] = [0] :=
  zero_norm_guard.1 [0, 0] [1, 2] (Or.inl (by norm_num [sqNorm, dot])) Backend.mlx

/-- C5: an explicit, valid, currently-available backend preference is
honored unconditionally, and the explicit CPU preference yields the CPU
backend on every machine, accelerators present or not. -/
theorem backend_selection_honors_explicit :
    (∀ (a : Availability) (q : List ℚ) (b : Backend),
      backendAvailable a b = true → select_backend a q (some b) = b) ∧
    (∀ (a : Availability) (q : List ℚ),
      select_backend a q (some Backend.numpy) = Backend.numpy) := by
  constructor
  · intro a q b hb
    cases b with
    | mlx => simp [backendAvailable] at hb; simp [select_backend, hb]
    | jax => simp [backendAvailable] at hb; simp [select_backend, hb]
    | numpy => rfl
  · intro a q
    rfl

/-- Witness for C5: an explicit MLX request on a machine with both
accelerators yields MLX. -/
theorem backend_selection_honors_explicit_witness :
    select_backend ⟨true, true⟩ [1] (some Backend.mlx) = Backend.mlx :=
  backend_selection_honors_explicit.1 ⟨true, true⟩ [1] Backend.mlx (by decide)

/-- C6: every successful search returns at most `top_k` results, never
more results than there are eligible (embedded, at-or-above-threshold)
documents, and when there are fewer eligible documents than `top_k` the
results are exactly all of them (as a permutation — no padding). -/
theorem search_result_count (r : SemanticRetriever) (q : List ℚ) (k : Nat)
    (t : ℚ) (p : Option Backend) (oc : SearchOutcome)
    (hok : (r.semantic_search q k t p).1 = Except.ok oc) :
    oc.results.length ≤ k ∧
    oc.results.length ≤ (eligibleEntries r q t p).length ∧
    ((eligibleEntries r q t p).length < k →
      oc.results.Perm ((eligibleEntries r q t p).map entryResult)) := by
  rw [semantic_search_eq] at hok
  have hres := searchResults_eq hok
  have hFperm :
      (((scoreWith (kernel_for (select_backend r.avail q p)) q
          (candidatesOf r)).mergeSort entryLE).filter
        (fun e => decide (t ≤ e.score))).Perm (eligibleEntries r q t p) :=
    List.Perm.filter _ (List.mergeSort_perm _ entryLE)
  have hlen := hFperm.length_eq
  have hkeq : keptEntriesWith kernel_for r q k t p =
      (((scoreWith (kernel_for (select_backend r.avail q p)) q
          (candidatesOf r)).mergeSort entryLE).filter
        (fun e => decide (t ≤ e.score))).take k := rfl
  refine ⟨?_, ?_, ?_⟩
  · rw [hres, List.length_map, hkeq, List.length_take]
    exact min_le_left _ _
  · rw [hres, List.length_map, hkeq, List.length_take, ← hlen]
    exact min_le_right _ _
  · intro hlt
    rw [hres, hkeq]
    have hle : (((scoreWith (kernel_for (select_backend r.avail q p)) q
        (candidatesOf r)).mergeSort entryLE).filter
        (fun e => decide (t ≤ e.score))).length ≤ k := by
      rw [hlen]
      exact hlt.le
    rw [List.take_of_length_le hle]
    exact hFperm.map entryResult

/-- Witness for C6: the degenerate-corpus search returns at most 3
results. -/
theorem search_result_count_witness :
    (⟨[], Backend.numpy, 0⟩ : SearchOutcome).results.length ≤ 3 :=
  (search_result_count sampleRdeg [1, 2] 3 0 none ⟨[], Backend.numpy, 0⟩ rfl).1

/-- C7: the ranked entry list a search returns is ordered by score
descending, with any two equal-scored entries in their original corpus
insertion order, and every successful search's result list is exactly the
packaging of that ranked list. -/
theorem search_sorted_stable (r : SemanticRetriever) (q : List ℚ) (k : Nat)
    (t : ℚ) (p : Option Backend) (hc : cacheConsistent r) :
    List.Pairwise
      (fun a b : Entry => b.score ≤ a.score ∧ (b.score = a.score → a.idx < b.idx))
      (keptEntries r q k t p) ∧
    (∀ oc, (r.semantic_search q k t p).1 = Except.ok oc →
      oc.results = (keptEntries r q k t p).map entryResult) := by
  constructor
  · have hsorted :
        List.Pairwise (fun a b : Entry => entryLE a b = true)
          ((scoreWith (kernel_for (select_backend r.avail q p)) q
            (candidatesOf r)).mergeSort entryLE) :=
      List.sorted_mergeSort entryLE_trans entryLE_total _
    have hidx :
        List.Pairwise (fun a b : Entry => a.idx ≠ b.idx)
          ((scoreWith (kernel_for (select_backend r.avail q p)) q
            (candidatesOf r)).mergeSort entryLE) := by
      refine ((List.mergeSort_perm _ entryLE).pairwise_iff ?_).mpr
        ((scored_pairwise_idx hc _ q).imp ?_)
      · intro x y h
        exact h.symm
      · intro a b h
        exact Nat.ne_of_lt h
    have hcomb := hsorted.and hidx
    have htarget :
        List.Pairwise
          (fun a b : Entry => b.score ≤ a.score ∧ (b.score = a.score → a.idx < b.idx))
          ((scoreWith (kernel_for (select_backend r.avail q p)) q
            (candidatesOf r)).mergeSort entryLE) := by
      refine hcomb.imp ?_
      intro a b hab
      rcases hab with ⟨hle, hne⟩
      rcases (entryLE_iff a b).mp hle with hlt | ⟨heq, hidx'⟩
      · exact ⟨hlt.le, fun hbe => absurd hbe (ne_of_lt hlt)⟩
      · exact ⟨heq.symm.le, fun _ => lt_of_le_of_ne hidx' hne⟩
    exact ((htarget.filter _).sublist (List.take_sublist _ _))
  · intro oc hok
    rw [semantic_search_eq] at hok
    exact searchResults_eq hok

/-- Witness for C7: the ranked list of the tied two-chunk corpus is
pairwise ordered with the tie in insertion order. -/
theorem search_sorted_stable_witness :
    List.Pairwise
      (fun a b : Entry => b.score ≤ a.score ∧ (b.score = a.score → a.idx < b.idx))
      (keptEntries sampleRtie [1, 0] 3 0 none) :=
  (search_sorted_stable sampleRtie [1, 0] 3 0 none (Or.inl rfl)).1

/-- C8: all backend variants of the kernel are extensionally equal (hence
rankings agree and each score agrees exactly, well within the 1e-4
relative tolerance), and the caller-visible result list of a search does
not depend on the backend preference. -/
theorem backend_equivalence :
    (∀ (q : List ℚ) (docs : List (List ℚ)),
      mlx_cosine_sim q docs = numpy_cosine_sim q docs ∧
      jax_cosine_sim q docs = numpy_cosine_sim q docs) ∧
    (∀ (r : SemanticRetriever) (q : List ℚ) (k : Nat) (t : ℚ)
        (p₁ p₂ : Option Backend),
      Except.map SearchOutcome.results (r.semantic_search q k t p₁).1 =
        Except.map SearchOutcome.results (r.semantic_search q k t p₂).1) := by
  constructor
  · intro q docs
    exact ⟨rfl, rfl⟩
  · intro r q k t p₁ p₂
    rw [semantic_search_eq, semantic_search_eq]
    unfold semantic_search_with
    by_cases h1 : candidatesOf r = []
    · rw [if_pos h1, if_pos h1]
    · rw [if_neg h1, if_neg h1]
      by_cases h2 : q = [] ∨ ∃ c ∈ candidatesOf r, c.emb.length ≠ q.length
      · rw [if_pos h2, if_pos h2]
      · rw [if_neg h2, if_neg h2]
        have hkept : keptEntriesWith kernel_for r q k t p₁ =
            keptEntriesWith kernel_for r q k t p₂ := by
          simp only [keptEntriesWith, kernel_for_eq]
        simp only [Except.map, hkept]

/-- C9 (evaluating the code at the failing input): a successful embedding
pass over a manager with one unembedded chunk ends with the retriever's
cache field set to absent — the effect knowledge_manager.py line 117
achieves by assigning `self.retriever._embeddings_cache = None` directly
from outside the Retriever instead of calling its public `clear_cache()`
— and with every chunk embedded. -/
theorem generate_embeddings_clears_cache_directly :
    (kmNew.generate_embeddings_for_new_chunks).retriever.embeddings_cache = none ∧
    (kmNew.generate_embeddings_for_new_chunks).retriever.kb.chunks.all
      (fun c => c.embedding.isSome) = true ∧
    kmNew.retriever.embeddings_cache ≠ none := by
  refine ⟨rfl, rfl, ?_⟩
  intro h
  exact Option.noConfusion h

/-- C10: `KnowledgeManager.search` is total at its public boundary: when
the embed-and-search pipeline fails with any error the caller receives the
empty list, and when it succeeds (on a non-degenerate corpus) the caller
receives exactly its result list — no error ever escapes. -/
theorem manager_search_total (km : KnowledgeManager) (q : String) (k : Nat)
    (t : ℚ) :
    (∀ e, km.searchCore q k t = Except.error e → km.search q k t = []) ∧
    (∀ rs, km.retriever.kb.chunks ≠ [] →
      ¬(km.retriever.kb.chunks.all (fun c => c.embedding.isNone) = true) →
      km.searchCore q k t = Except.ok rs → km.search q k t = rs) := by
  constructor
  · intro e he
    unfold KnowledgeManager.search
    split_ifs with h1 h2
    · rfl
    · rfl
    · rw [he]
  · intro rs h1 h2 hok
    unfold KnowledgeManager.search
    rw [if_neg h1, if_neg h2, hok]

/-- Witness for C10: a manager whose embedding client fails outright still
returns the empty list from `search`. -/
theorem manager_search_total_witness :
    KnowledgeManager.search kmFail "query" 3 (3 / 5) = [] :=
  (manager_search_total kmFail "query" 3 (3 / 5)).1 "api down" rfl

end LlamaSearch
